import Mathlib

/-!
Verification of the audiobook splitter (`split_audiobook.py`).

The development shallowly embeds the pure core of the script:
chapter validation, the naming engine (zero-padded chapter numbers,
title/basename labels), work-plan generation, the ffmpeg command builder,
and the sequential skeleton of `main` (probe gate, output-directory
creation, validation, work-item construction, dry-run, and the
result-aggregation loop).  External collaborators (ffprobe, ffmpeg,
`tempfile.mkdtemp`, the completion order of the thread pool) are parameters.
-/

namespace SplitAudiobook

/-! ## Decimal rendering: a model of Python `str(n)` for a nonnegative int -/

/-- Character for one decimal digit. -/
def digitChar : Nat → Char
  | 0 => '0'
  | 1 => '1'
  | 2 => '2'
  | 3 => '3'
  | 4 => '4'
  | 5 => '5'
  | 6 => '6'
  | 7 => '7'
  | 8 => '8'
  | 9 => '9'
  | _ => '?'

/-- Little-endian base-10 digits, fuel-based so that it reduces in the kernel. -/
def decDigitsAux : Nat → Nat → List Nat
  | 0, _ => []
  | _ + 1, 0 => []
  | fuel + 1, n + 1 => ((n + 1) % 10) :: decDigitsAux fuel ((n + 1) / 10)

/-- Little-endian base-10 digits of `n`. -/
def decDigits (n : Nat) : List Nat := decDigitsAux n n

/-- Model of Python `str(n)` for a nonnegative integer: most significant digit first. -/
def decimalStr (n : Nat) : String :=
  if n = 0 then "0" else String.mk ((decDigits n).reverse.map digitChar)

/-! ## Zero padding: a model of the format string with fill `0` -/

/-- Model of Python format `n:{fill}{width}` with fill `0`: left-pad `s` to width `w`. -/
def padZero (w : Nat) (s : String) : String :=
  String.mk (List.replicate (w - s.length) '0' ++ s.data)


/-! ## Data model

Chapters as parsed from the probe tool JSON: `id`, numeric `start`/`end`
(time-base units, used only for duration validation), string `start_time` /
`end_time` (used verbatim in the ffmpeg command), and an optional `tags`
object that may carry a `title`. -/

structure ChapterTags where
  title : Option String
deriving DecidableEq

structure RawChapter where
  id : Nat
  start : Int
  end_ : Int
  start_time : String
  end_time : String
  tags : Option ChapterTags
deriving DecidableEq

/-- Truthiness of an optional string, as Python evaluates `if x:`:
`None` and the empty string are falsy. -/
def pyTruthy : Option String → Bool
  | none => false
  | some s => !(s == "")

/-- `get_title_maybe`: the chapter `tags.title`, or `None` when the `tags`
object or the `title` key is absent. -/
def get_title_maybe (ch : RawChapter) : Option String :=
  match ch.tags with
  | none => none
  | some t => t.title

/-- `validate_chapter`: drop a chapter whose duration `end - start` is zero or
negative (the script prints a warning and returns `None`); keep it otherwise. -/
def validate_chapter (ch : RawChapter) : Option RawChapter :=
  if ch.end_ - ch.start ≤ 0 then none else some ch

/-- Maximum of the chapter ids (the `max` generator expression): `none` models
the `ValueError` that the Python `max` raises on an empty sequence. -/
def maxChapterId : List RawChapter → Option Nat
  | [] => none
  | c :: cs => some (cs.foldl (fun m ch => Nat.max m ch.id) c.id)

/-- `chnum_format`: zero-pad the chapter number to the width of the decimal
rendering of the maximum valid chapter id. -/
def chnum_format (max_chapter n : Nat) : String :=
  padZero (decimalStr max_chapter).length (decimalStr n)

/-- `outfile_basename`: filename template `ch (num) - (label).(ext)` where the
label is the chapter title when the title option is on and the title is truthy,
and the base name of the input file otherwise. -/
def outfile_basename (use_title : Bool) (fbase fext : String) (max_chapter n : Nat)
    (title_maybe : Option String) : String :=
  let ch_num := chnum_format max_chapter n
  if use_title && pyTruthy title_maybe then
    "ch " ++ ch_num ++ " - " ++ title_maybe.getD "" ++ "." ++ fext
  else
    "ch " ++ ch_num ++ " - " ++ fbase ++ "." ++ fext

structure WorkItem where
  infile : String
  outfile : String
  start : String
  end_ : String
  ch_id : Nat
  ch_max : Nat
  ch_title : Option String
deriving DecidableEq

/-- `os.path.join` for POSIX paths, on the semantics used by the script:
an absolute second component replaces the first; otherwise the parts are
joined with a single separator. -/
def os_path_join (a b : String) : String :=
  if b.data.head? = some '/' then b
  else if a.data = [] || a.data.getLast? = some '/' then a ++ b
  else a ++ "/" ++ b

/-- `gen_workitems`: one `WorkItem` per validated chapter, in list order.
The closure context of the Python generator (`args`, `outdir`, `fbase`,
`fext`, `max_chapter`) is passed explicitly. -/
def gen_workitems (use_title : Bool) (infile fbase fext outdir : String)
    (max_chapter : Nat) (chapters : List RawChapter) : List WorkItem :=
  chapters.map fun chapter =>
    { infile := infile
      outfile := os_path_join outdir
        (outfile_basename use_title fbase fext max_chapter chapter.id
          (get_title_maybe chapter))
      start := chapter.start_time
      end_ := chapter.end_time
      ch_id := chapter.id
      ch_max := max_chapter
      ch_title := get_title_maybe chapter }

/-- `workitem_to_ffmpeg_cmd`: the flat argument vector handed to the split
tool, built exactly as in the script. -/
def workitem_to_ffmpeg_cmd (wi : WorkItem) : List String :=
  let base_cmd := ["ffmpeg", "-nostdin", "-i", wi.infile, "-v", "error",
    "-map_chapters", "-1", "-vn", "-c", "copy", "-ss", wi.start, "-to", wi.end_, "-n"]
  let metadata_track :=
    ["-metadata", "track=" ++ decimalStr wi.ch_id ++ "/" ++ decimalStr wi.ch_max]
  let metadata_title :=
    if pyTruthy wi.ch_title then ["-metadata", "title=" ++ wi.ch_title.getD ""] else []
  base_cmd ++ metadata_track ++ metadata_title ++ [wi.outfile]

/-! ## Job dispatch and result aggregation -/

/-- Result of `subprocess.run`: exit code plus both captured streams. -/
structure ProcResult where
  returncode : Int
  stdout : String
  stderr : String
deriving DecidableEq

/-- The dict returned by `ffmpeg_split`. -/
structure SplitResult where
  ok : Bool
  wi : WorkItem
  procStdout : String
  procStderr : String
  cmd : List String
deriving DecidableEq

/-- `ffmpeg_split`: run the command; a non-zero exit is caught
(`CalledProcessError`) and reported as `ok := false`.  An exception from the
process launcher itself propagates (`Except.error`). -/
def ffmpeg_split (run : List String → Except String ProcResult) (wi : WorkItem) :
    Except String SplitResult :=
  let cmd := workitem_to_ffmpeg_cmd wi
  match run cmd with
  | .error e => .error e
  | .ok s =>
    if s.returncode = 0 then
      .ok { ok := true, wi := wi, procStdout := s.stdout, procStderr := s.stderr, cmd := cmd }
    else
      .ok { ok := false, wi := wi, procStdout := s.stdout, procStderr := s.stderr, cmd := cmd }

/-- What `fut.result()` yields for one work item: the `ffmpeg_split` dict,
or the exception the worker raised. -/
inductive JobOutcome
  | res (r : SplitResult)
  | exn (msg : String)
deriving DecidableEq

def jobOutcome (run : List String → Except String ProcResult) (wi : WorkItem) : JobOutcome :=
  match ffmpeg_split run wi with
  | .ok r => .res r
  | .error e => .exn e

/-- Uncaught exceptions that abort `main`. -/
inductive MainCrash
  /-- `NameError`: the failure-logging branch reads `res["cmd"]` but the
  variable in scope is named `result`. -/
  | nameErrorRes
  /-- `ValueError`: `max()` applied to the empty sequence of valid chapter ids. -/
  | maxEmpty
deriving DecidableEq

/-- The mutable tally of the aggregation loop. -/
structure AggState where
  success : Nat
  errors : Nat
deriving DecidableEq

/-- One iteration of the `as_completed` loop.  A worker exception is caught and
counted; a successful result is counted; a failed result enters the logging
branch, which crashes with `NameError` on the undefined name `res`. -/
def handle_outcome (st : AggState) : JobOutcome → Except MainCrash AggState
  | .exn _ => .ok { success := st.success, errors := st.errors + 1 }
  | .res r =>
    if r.ok then .ok { success := st.success + 1, errors := st.errors }
    else .error .nameErrorRes

/-- The whole `as_completed` loop over the outcomes in completion order. -/
def aggregate (st : AggState) : List JobOutcome → Except MainCrash AggState
  | [] => .ok st
  | o :: rest =>
    match handle_outcome st o with
    | .error c => .error c
    | .ok st' => aggregate st' rest

/-! ## The sequential skeleton of `main` -/

/-- Index of the last occurrence of a character. -/
def lastIdxOf (c : Char) : List Char → Option Nat
  | [] => none
  | x :: xs =>
    match lastIdxOf c xs with
    | some i => some (i + 1)
    | none => if x = c then some 0 else none

/-- `os.path.basename` for POSIX paths: everything after the last slash. -/
def os_path_basename (p : String) : String :=
  match lastIdxOf '/' p.data with
  | none => p
  | some i => String.mk (p.data.drop (i + 1))

/-- `os.path.splitext` on a slash-free name (the script always applies it to a
basename): split before the last dot, unless every character before that dot
is itself a dot. -/
def os_path_splitext (p : String) : String × String :=
  match lastIdxOf '.' p.data with
  | none => (p, "")
  | some i =>
    if (p.data.take i).any (fun c => c != '.') then
      (String.mk (p.data.take i), String.mk (p.data.drop i))
    else (p, "")

/-- Parsed probe output: the JSON object may lack the `chapters` key. -/
structure ProbeInfo where
  chapters? : Option (List RawChapter)
deriving DecidableEq

/-- The command-line arguments that influence values (`--concurrency` and
`--verbose` only affect scheduling and logging). -/
structure Args where
  infile : String
  use_title : Bool
  dry_run : Bool
  outdir : Option String
deriving DecidableEq

/-- How a run of `main` ends: an explicit `return` before the splitting phase,
an uncaught exception, or the final report (`return 0` with the tallies). -/
inductive MainOutcome
  | earlyExit (code : Int)
  | crash (c : MainCrash)
  | finished (code : Int) (success errors : Nat)
deriving DecidableEq

/-- Observable effects of one run: whether the output directory was created,
the work items that were built (if the run got that far), and the ending. -/
structure MainRun where
  dirCreated : Bool
  items : Option (List WorkItem)
  outcome : MainOutcome
deriving DecidableEq

/-- The `main` function of the script, with its external collaborators as parameters:
`probe` is what `parseChapters` returned, `mkdtempDir` the fresh temporary
directory name, `sched` the completion order imposed by the thread pool
(a permutation of the submitted jobs), and `run` the subprocess launcher. -/
def main (probe : Option ProbeInfo) (mkdtempDir : String)
    (sched : List JobOutcome → List JobOutcome)
    (run : List String → Except String ProcResult) (args : Args) : MainRun :=
  let split := os_path_splitext (os_path_basename args.infile)
  let fbase := split.1
  let fext0 := split.2
  if fbase.length = 0 || fext0.length = 0 then
    { dirCreated := false, items := none, outcome := .earlyExit (-1) }
  else
    let fext := if fext0.data.head? = some '.' then fext0.drop 1 else fext0
    match probe with
    | none => { dirCreated := false, items := none, outcome := .earlyExit (-1) }
    | some info =>
      match info.chapters? with
      | none => { dirCreated := false, items := none, outcome := .earlyExit (-1) }
      | some raw =>
        if raw.length = 0 then
          { dirCreated := false, items := none, outcome := .earlyExit (-1) }
        else
          -- the output directory is created here, before validation
          let outdir :=
            match args.outdir with
            | some d => if d = "" then mkdtempDir else d
            | none => mkdtempDir
          let chapters := raw.filterMap validate_chapter
          match maxChapterId chapters with
          | none => { dirCreated := true, items := none, outcome := .crash .maxEmpty }
          | some max_chapter =>
            let WIS := gen_workitems args.use_title args.infile fbase fext outdir
              max_chapter chapters
            if args.dry_run then
              { dirCreated := true, items := some WIS, outcome := .earlyExit 0 }
            else
              match aggregate { success := 0, errors := 0 }
                  (sched (WIS.map (jobOutcome run))) with
              | .error c => { dirCreated := true, items := some WIS, outcome := .crash c }
              | .ok st =>
                { dirCreated := true, items := some WIS,
                  outcome := .finished 0 st.success st.errors }


/-! ## Concrete fixtures used by witnesses and counterexamples -/

/-- A typical argument set: input `/tmp/book.mp3`, explicit output directory. -/
def exArgs : Args :=
  { infile := "/tmp/book.mp3", use_title := true, dry_run := false, outdir := some "out" }

/-- A valid chapter with a title. -/
def exCh1 : RawChapter :=
  { id := 1, start := 0, end_ := 100, start_time := "0.000", end_time := "100.000",
    tags := some { title := some "Intro" } }

/-- A valid chapter without tags. -/
def exCh3 : RawChapter :=
  { id := 3, start := 100, end_ := 300, start_time := "100.000", end_time := "300.000",
    tags := none }

/-- A chapter with zero duration: dropped by validation. -/
def exChZero : RawChapter :=
  { id := 2, start := 100, end_ := 100, start_time := "100.000", end_time := "100.000",
    tags := none }

/-- Chapters with the 0-based ids the probe tool emits, both valid. -/
def exCh0 : RawChapter :=
  { id := 0, start := 0, end_ := 50, start_time := "0", end_time := "50", tags := none }

def exCh1b : RawChapter :=
  { id := 1, start := 50, end_ := 100, start_time := "50", end_time := "100", tags := none }

/-- A subprocess launcher whose process cannot be started at all. -/
def runExn : List String → Except String ProcResult :=
  fun _ => .error "FileNotFoundError"

/-- A subprocess launcher whose tool runs and exits non-zero. -/
def runFail : List String → Except String ProcResult :=
  fun _ => .ok { returncode := 1, stdout := "boom-out", stderr := "boom-err" }

/-- A subprocess launcher whose tool always succeeds. -/
def runOk : List String → Except String ProcResult :=
  fun _ => .ok { returncode := 0, stdout := "", stderr := "" }

/-- A fallback `WorkItem` for total list access in closed statements. -/
def wiDefault : WorkItem :=
  { infile := "", outfile := "", start := "", end_ := "", ch_id := 0, ch_max := 0,
    ch_title := none }

/-! ## Helper lemmas -/

theorem decDigitsAux_eq_digits : ∀ fuel n, n ≤ fuel → decDigitsAux fuel n = Nat.digits 10 n
  | 0, 0, _ => by simp [decDigitsAux]
  | 0, n + 1, h => absurd h (by omega)
  | fuel + 1, 0, _ => by simp [decDigitsAux]
  | fuel + 1, n + 1, h => by
    rw [decDigitsAux, decDigitsAux_eq_digits fuel ((n + 1) / 10) (by omega),
      Nat.digits_def' (by norm_num) (Nat.succ_pos n)]

theorem decDigits_eq_digits (n : Nat) : decDigits n = Nat.digits 10 n :=
  decDigitsAux_eq_digits n n le_rfl

theorem length_mk (l : List Char) : (String.mk l).length = l.length := rfl

theorem data_append (a b : String) : (a ++ b).data = a.data ++ b.data := by
  cases a; cases b; rfl

theorem string_ext {a b : String} (h : a.data = b.data) : a = b := by
  cases a
  cases b
  exact congrArg String.mk h

theorem decimalStr_length_pos (n : Nat) : 1 ≤ (decimalStr n).length := by
  unfold decimalStr
  split
  · decide
  · rename_i hn
    rw [length_mk, List.length_map, List.length_reverse, decDigits_eq_digits]
    have : Nat.digits 10 n ≠ [] := Nat.digits_ne_nil_iff_ne_zero.mpr hn
    cases h : Nat.digits 10 n with
    | nil => exact absurd h this
    | cons a l => simp

theorem decimalStr_length_eq (n : Nat) (hn : n ≠ 0) :
    (decimalStr n).length = (Nat.digits 10 n).length := by
  unfold decimalStr
  rw [if_neg hn, length_mk, List.length_map, List.length_reverse, decDigits_eq_digits]

/-- Digit characters determine the digit, for genuine digits. -/
theorem digitChar_inj : ∀ d1, d1 < 10 → ∀ d2, d2 < 10 → digitChar d1 = digitChar d2 → d1 = d2 := by
  decide

theorem digitChar_ne_zero : ∀ d, d < 10 → d ≠ 0 → digitChar d ≠ '0' := by
  decide

theorem map_digitChar_inj :
    ∀ l1 l2 : List Nat, (∀ d ∈ l1, d < 10) → (∀ d ∈ l2, d < 10) →
      l1.map digitChar = l2.map digitChar → l1 = l2
  | [], [], _, _, _ => rfl
  | [], _ :: _, _, _, h => by simp at h
  | _ :: _, [], _, _, h => by simp at h
  | a :: l1, b :: l2, h1, h2, h => by
    simp only [List.map_cons, List.cons.injEq] at h
    have ha : a < 10 := h1 a (List.mem_cons_self a l1)
    have hb : b < 10 := h2 b (List.mem_cons_self b l2)
    have : a = b := digitChar_inj a ha b hb h.1
    subst this
    have : l1 = l2 :=
      map_digitChar_inj l1 l2 (fun d hd => h1 d (List.mem_cons_of_mem _ hd))
        (fun d hd => h2 d (List.mem_cons_of_mem _ hd)) h.2
    rw [this]

theorem decimalStr_data (n : Nat) (hn : n ≠ 0) :
    (decimalStr n).data = (Nat.digits 10 n).reverse.map digitChar := by
  unfold decimalStr
  rw [if_neg hn, decDigits_eq_digits]

/-- For a nonzero number, the rendered string never starts with the character `0`. -/
theorem decimalStr_not_cons_zero (n : Nat) (hn : n ≠ 0) (l : List Char) :
    (decimalStr n).data ≠ '0' :: l := by
  intro h
  rw [decimalStr_data n hn] at h
  cases hrev : (Nat.digits 10 n).reverse with
  | nil =>
    rw [hrev] at h
    simp at h
  | cons d ds =>
    rw [hrev] at h
    simp only [List.map_cons, List.cons.injEq] at h
    have hd_mem : d ∈ Nat.digits 10 n := by
      have : d ∈ (Nat.digits 10 n).reverse := by rw [hrev]; exact List.mem_cons_self d ds
      exact List.mem_reverse.mp this
    have hd10 : d < 10 := Nat.digits_lt_base (by norm_num) hd_mem
    have hne : (Nat.digits 10 n) ≠ [] := Nat.digits_ne_nil_iff_ne_zero.mpr hn
    have hlast := Nat.getLast_digit_ne_zero 10 hn
    have hglast : (Nat.digits 10 n).getLast hne = d := by
      have hdd : Nat.digits 10 n = (d :: ds).reverse := by
        rw [← hrev, List.reverse_reverse]
      rw [List.getLast_congr _ (by simp) hdd]
      simp [List.getLast_reverse]
    have hdz : d ≠ 0 := by rw [← hglast]; exact hlast
    exact digitChar_ne_zero d hd10 hdz h.1

theorem decimalStr_inj {m n : Nat} (h : decimalStr m = decimalStr n) : m = n := by
  by_cases hm : m = 0
  · by_cases hn : n = 0
    · rw [hm, hn]
    · subst hm
      exfalso
      have : (decimalStr n).data = '0' :: [] := by
        rw [← h]; rfl
      exact decimalStr_not_cons_zero n hn [] this
  · by_cases hn : n = 0
    · subst hn
      exfalso
      have : (decimalStr m).data = '0' :: [] := by
        rw [h]; rfl
      exact decimalStr_not_cons_zero m hm [] this
    · have hd : (decimalStr m).data = (decimalStr n).data := by rw [h]
      rw [decimalStr_data m hm, decimalStr_data n hn] at hd
      have hrev : (Nat.digits 10 m).reverse = (Nat.digits 10 n).reverse :=
        map_digitChar_inj _ _
          (fun d hdm => Nat.digits_lt_base (by norm_num) (List.mem_reverse.mp hdm))
          (fun d hdn => Nat.digits_lt_base (by norm_num) (List.mem_reverse.mp hdn)) hd
      have : Nat.digits 10 m = Nat.digits 10 n := by
        have := congrArg List.reverse hrev
        simpa using this
      exact Nat.digits.injective 10 this

theorem decimalStr_len_mono {m n : Nat} (h : m ≤ n) :
    (decimalStr m).length ≤ (decimalStr n).length := by
  by_cases hm : m = 0
  · subst hm
    have : (decimalStr 0).length = 1 := by decide
    rw [this]
    exact decimalStr_length_pos n
  · have hn : n ≠ 0 := by omega
    rw [decimalStr_length_eq m hm, decimalStr_length_eq n hn]
    exact Nat.le_digits_len_le 10 m n h

theorem padZero_length {w : Nat} {s : String} (h : s.length ≤ w) :
    (padZero w s).length = w := by
  unfold padZero
  rw [length_mk, List.length_append, List.length_replicate]
  cases s
  simp only [String.length] at *
  omega

theorem padZero_decimalStr_inj {w m n : Nat}
    (hm : (decimalStr m).length ≤ w) (hn : (decimalStr n).length ≤ w)
    (h : padZero w (decimalStr m) = padZero w (decimalStr n)) : m = n := by
  unfold padZero at h
  have hd : List.replicate (w - (decimalStr m).length) '0' ++ (decimalStr m).data
      = List.replicate (w - (decimalStr n).length) '0' ++ (decimalStr n).data := by
    have := congrArg String.data h
    simpa using this
  have hlm : (decimalStr m).data.length = (decimalStr m).length := rfl
  have hln : (decimalStr n).data.length = (decimalStr n).length := rfl
  rcases Nat.le_total (decimalStr m).length (decimalStr n).length with hle | hle
  · -- peel the common prefix of `w - len n` zeros
    have hsplit : List.replicate (w - (decimalStr m).length) '0'
        = List.replicate (w - (decimalStr n).length) '0'
          ++ List.replicate ((decimalStr n).length - (decimalStr m).length) '0' := by
      rw [← List.replicate_add]
      congr 1
      omega
    rw [hsplit, List.append_assoc] at hd
    have hd2 : List.replicate ((decimalStr n).length - (decimalStr m).length) '0'
        ++ (decimalStr m).data = (decimalStr n).data :=
      (List.append_cancel_left hd)
    by_cases heq : (decimalStr m).length = (decimalStr n).length
    · rw [heq] at hd2
      simp only [Nat.sub_self, List.replicate_zero, List.nil_append] at hd2
      exact decimalStr_inj (string_ext hd2)
    · exfalso
      have hlt : (decimalStr m).length < (decimalStr n).length := by omega
      have hpos : 0 < (decimalStr n).length - (decimalStr m).length := by omega
      have hnz : n ≠ 0 := by
        intro hn0
        subst hn0
        have : (decimalStr 0).length = 1 := by decide
        have := decimalStr_length_pos m
        omega
      cases hrep : List.replicate ((decimalStr n).length - (decimalStr m).length) '0' with
      | nil =>
        have : (decimalStr n).length - (decimalStr m).length = 0 := by
          have := congrArg List.length hrep
          simpa using this
        omega
      | cons c cs =>
        have hc : c = '0' := by
          have : c ∈ List.replicate ((decimalStr n).length - (decimalStr m).length) '0' := by
            rw [hrep]; exact List.mem_cons_self c cs
          exact List.eq_of_mem_replicate this
        rw [hrep, hc] at hd2
        exact decimalStr_not_cons_zero n hnz _ hd2.symm
  · -- symmetric case
    have hsplit : List.replicate (w - (decimalStr n).length) '0'
        = List.replicate (w - (decimalStr m).length) '0'
          ++ List.replicate ((decimalStr m).length - (decimalStr n).length) '0' := by
      rw [← List.replicate_add]
      congr 1
      omega
    rw [hsplit, List.append_assoc] at hd
    have hd2 : (decimalStr m).data
        = List.replicate ((decimalStr m).length - (decimalStr n).length) '0'
          ++ (decimalStr n).data :=
      (List.append_cancel_left hd)
    by_cases heq : (decimalStr m).length = (decimalStr n).length
    · rw [heq] at hd2
      simp only [Nat.sub_self, List.replicate_zero, List.nil_append] at hd2
      exact decimalStr_inj (string_ext hd2)
    · exfalso
      have hlt : (decimalStr n).length < (decimalStr m).length := by omega
      have hmz : m ≠ 0 := by
        intro hm0
        subst hm0
        have : (decimalStr 0).length = 1 := by decide
        have := decimalStr_length_pos n
        omega
      cases hrep : List.replicate ((decimalStr m).length - (decimalStr n).length) '0' with
      | nil =>
        have : (decimalStr m).length - (decimalStr n).length = 0 := by
          have := congrArg List.length hrep
          simpa using this
        omega
      | cons c cs =>
        have hc : c = '0' := by
          have : c ∈ List.replicate ((decimalStr m).length - (decimalStr n).length) '0' := by
            rw [hrep]; exact List.mem_cons_self c cs
          exact List.eq_of_mem_replicate this
        rw [hrep, hc] at hd2
        exact decimalStr_not_cons_zero m hmz _ hd2

theorem filterMap_validate (raw : List RawChapter) :
    raw.filterMap validate_chapter
      = raw.filter (fun ch => decide (0 < ch.end_ - ch.start)) := by
  induction raw with
  | nil => rfl
  | cons ch rest ih =>
    by_cases h : ch.end_ - ch.start ≤ 0
    · have hv : validate_chapter ch = none := by
        simp only [validate_chapter]
        rw [if_pos h]
      have hp : (decide (0 < ch.end_ - ch.start)) = false := by
        simp only [decide_eq_false_iff_not]
        omega
      simp [List.filterMap_cons, List.filter_cons, hv, hp, ih]
      rw [if_neg (show ¬ ch.start < ch.end_ by omega)]
    · have hv : validate_chapter ch = some ch := by
        simp only [validate_chapter]
        rw [if_neg h]
      have hp : (decide (0 < ch.end_ - ch.start)) = true := by
        simp only [decide_eq_true_eq]
        omega
      simp [List.filterMap_cons, List.filter_cons, hv, hp, ih]
      rw [if_pos (show ch.start < ch.end_ by omega)]

theorem le_foldl_max_init :
    ∀ (l : List RawChapter) (a : Nat), a ≤ l.foldl (fun m ch => Nat.max m ch.id) a
  | [], _ => le_rfl
  | ch :: rest, a =>
    le_trans (Nat.le_max_left a ch.id) (le_foldl_max_init rest (Nat.max a ch.id))

theorem mem_le_foldl_max :
    ∀ (l : List RawChapter) (a : Nat) (ch : RawChapter), ch ∈ l →
      ch.id ≤ l.foldl (fun m c => Nat.max m c.id) a
  | [], _, _, h => absurd h (List.not_mem_nil _)
  | c :: rest, a, ch, h => by
    rcases List.mem_cons.mp h with h1 | h2
    · subst h1
      exact le_trans (Nat.le_max_right a ch.id) (le_foldl_max_init rest _)
    · exact mem_le_foldl_max rest _ ch h2

theorem le_maxChapterId {l : List RawChapter} {mx : Nat} (h : maxChapterId l = some mx) :
    ∀ ch ∈ l, ch.id ≤ mx := by
  intro ch hch
  cases l with
  | nil => exact absurd hch (List.not_mem_nil _)
  | cons c rest =>
    simp only [maxChapterId, Option.some.injEq] at h
    subst h
    rcases List.mem_cons.mp hch with h1 | h2
    · subst h1
      exact le_foldl_max_init rest ch.id
    · exact mem_le_foldl_max rest _ ch h2

theorem chnum_format_length {mx n : Nat} (h : n ≤ mx) :
    (chnum_format mx n).length = (decimalStr mx).length :=
  padZero_length (decimalStr_len_mono h)

theorem chnum_format_inj {mx n1 n2 : Nat} (h1 : n1 ≤ mx) (h2 : n2 ≤ mx)
    (h : chnum_format mx n1 = chnum_format mx n2) : n1 = n2 :=
  padZero_decimalStr_inj (decimalStr_len_mono h1) (decimalStr_len_mono h2) h

theorem outfile_basename_data (u : Bool) (fbase fext : String) (m n : Nat)
    (tm : Option String) :
    ∃ rest : List Char,
      (outfile_basename u fbase fext m n tm).data
        = 'c' :: 'h' :: ' ' :: ((chnum_format m n).data ++ rest) := by
  have hch : ("ch " : String).data = ['c', 'h', ' '] := rfl
  unfold outfile_basename
  by_cases h : (u && pyTruthy tm) = true
  · refine ⟨(" - " ++ tm.getD "" ++ "." ++ fext).data, ?_⟩
    rw [if_pos h]
    simp [data_append, hch, List.append_assoc]
  · refine ⟨(" - " ++ fbase ++ "." ++ fext).data, ?_⟩
    rw [if_neg h]
    simp [data_append, hch, List.append_assoc]

theorem os_path_join_inj {a b1 b2 : String}
    (h1 : b1.data.head? = some 'c') (h2 : b2.data.head? = some 'c')
    (h : os_path_join a b1 = os_path_join a b2) : b1 = b2 := by
  unfold os_path_join at h
  rw [h1, h2] at h
  have hF : ¬ ((some 'c' : Option Char) = some '/') := by simp
  rw [if_neg hF] at h
  rw [if_neg hF] at h
  by_cases hc : (decide (a.data = []) || decide (a.data.getLast? = some '/')) = true
  · rw [if_pos hc] at h
    rw [if_pos hc] at h
    have := congrArg String.data h
    rw [data_append, data_append] at this
    exact string_ext (List.append_cancel_left this)
  · rw [if_neg hc] at h
    rw [if_neg hc] at h
    have := congrArg String.data h
    rw [data_append, data_append, data_append, data_append] at this
    rw [List.append_assoc, List.append_assoc] at this
    have h2' := List.append_cancel_left this
    exact string_ext (List.append_cancel_left h2')

theorem outfile_basename_inj {u : Bool} {fbase fext : String} {mx n1 n2 : Nat}
    {t1 t2 : Option String} (hn1 : n1 ≤ mx) (hn2 : n2 ≤ mx)
    (h : outfile_basename u fbase fext mx n1 t1 = outfile_basename u fbase fext mx n2 t2) :
    n1 = n2 := by
  obtain ⟨r1, hr1⟩ := outfile_basename_data u fbase fext mx n1 t1
  obtain ⟨r2, hr2⟩ := outfile_basename_data u fbase fext mx n2 t2
  have hd := congrArg String.data h
  rw [hr1, hr2] at hd
  simp only [List.cons.injEq] at hd
  have happ : (chnum_format mx n1).data ++ r1 = (chnum_format mx n2).data ++ r2 :=
    hd.2.2.2
  have hlen : (chnum_format mx n1).data.length = (chnum_format mx n2).data.length := by
    have e1 : (chnum_format mx n1).data.length = (chnum_format mx n1).length := rfl
    have e2 : (chnum_format mx n2).data.length = (chnum_format mx n2).length := rfl
    rw [e1, e2, chnum_format_length hn1, chnum_format_length hn2]
  have := (List.append_inj happ hlen).1
  exact chnum_format_inj hn1 hn2 (string_ext this)

theorem outfile_basename_head (u : Bool) (fbase fext : String) (m n : Nat)
    (tm : Option String) :
    (outfile_basename u fbase fext m n tm).data.head? = some 'c' := by
  obtain ⟨r, hr⟩ := outfile_basename_data u fbase fext m n tm
  rw [hr]
  rfl

/-! ## Claims -/

/-- C4: for every chapter list returned by the probe, the number of WorkItems
built from the validated chapters equals the number of chapters with
`end - start > 0`; a chapter with `end - start <= 0` never produces a WorkItem
(validation drops it with a warning, returning `None`, rather than aborting). -/
theorem C4_workitem_count (u : Bool) (infile fbase fext outdir : String) (m : Nat)
    (raw : List RawChapter) :
    (gen_workitems u infile fbase fext outdir m (raw.filterMap validate_chapter)).length
      = (raw.filter (fun ch => decide (0 < ch.end_ - ch.start))).length
    ∧ ∀ ch : RawChapter, ch.end_ - ch.start ≤ 0 → validate_chapter ch = none := by
  constructor
  · rw [gen_workitems, List.length_map, filterMap_validate]
  · intro ch h
    simp only [validate_chapter]
    rw [if_pos h]

theorem C4_workitem_count_witness :
    exChZero.end_ - exChZero.start ≤ 0 ∧ validate_chapter exChZero = none :=
  ⟨by decide, (C4_workitem_count true "i" "b" "e" "o" 1 []).2 exChZero (by decide)⟩

/-- C6: the zero-padding width is the digit count of the maximum chapter id of
the valid (post-validation) set: a duration-invalid chapter contributes nothing
to the valid set, so its id never affects the width, and every chapter number
rendered for a plan with maximum valid id `mx` has exactly the width of `mx`;
concretely, with maximum valid id 12, chapter 3 renders as `03`. -/
theorem C6_padding_width (raw : List RawChapter) (c : RawChapter) (mx n : Nat)
    (hc : c.end_ - c.start ≤ 0) (hn : n ≤ mx) :
    maxChapterId ((raw ++ [c]).filterMap validate_chapter)
        = maxChapterId (raw.filterMap validate_chapter)
    ∧ (chnum_format mx n).length = (decimalStr mx).length
    ∧ chnum_format 12 3 = "03" := by
  refine ⟨?_, chnum_format_length hn, by decide⟩
  have hv : validate_chapter c = none := by
    simp only [validate_chapter]
    rw [if_pos hc]
  rw [List.filterMap_append]
  simp [hv]

theorem C6_padding_width_witness :
    (exChZero.end_ - exChZero.start ≤ 0 ∧ (3 : Nat) ≤ 12) ∧
    maxChapterId (([exCh1] ++ [exChZero]).filterMap validate_chapter)
      = maxChapterId ([exCh1].filterMap validate_chapter) :=
  ⟨⟨by decide, by decide⟩,
    (C6_padding_width [exCh1] exChZero 12 3 (by decide) (by decide)).1⟩

/-- C7: the filename label is the chapter title exactly when the
title-in-filename option is enabled and the chapter carries a non-empty title;
with the option disabled, a missing title, or an empty title, the label is the
base name of the input file. -/
theorem C7_label (u : Bool) (fbase fext : String) (m n : Nat) (tm : Option String) :
    (∀ t, tm = some t → t ≠ "" → u = true →
      outfile_basename u fbase fext m n tm
        = "ch " ++ chnum_format m n ++ " - " ++ t ++ "." ++ fext)
    ∧ (u = false ∨ tm = none ∨ tm = some "" →
      outfile_basename u fbase fext m n tm
        = "ch " ++ chnum_format m n ++ " - " ++ fbase ++ "." ++ fext) := by
  constructor
  · rintro t rfl ht rfl
    have htr : pyTruthy (some t) = true := by
      simp [pyTruthy, ht]
    simp [outfile_basename, htr]
  · rintro (rfl | rfl | rfl)
    · simp [outfile_basename]
    · simp [outfile_basename, pyTruthy]
    · simp [outfile_basename, pyTruthy]

theorem C7_label_witness :
    ((some "Intro" = some "Intro" ∧ ("Intro" : String) ≠ "" ∧ true = true) ∧
      outfile_basename true "album" "mp3" 12 3 (some "Intro")
        = "ch " ++ chnum_format 12 3 ++ " - " ++ "Intro" ++ "." ++ "mp3") ∧
    ((false = false ∨ (some "Intro" : Option String) = none ∨ some "Intro" = some "") ∧
      outfile_basename false "album" "mp3" 12 3 (some "Intro")
        = "ch " ++ chnum_format 12 3 ++ " - " ++ "album" ++ "." ++ "mp3") :=
  ⟨⟨⟨rfl, by decide, rfl⟩,
      (C7_label true "album" "mp3" 12 3 (some "Intro")).1 "Intro" rfl (by decide) rfl⟩,
    ⟨Or.inl rfl,
      (C7_label false "album" "mp3" 12 3 (some "Intro")).2 (Or.inl rfl)⟩⟩

/-- C9: the built command carries a `title` metadata tag, verbatim, exactly
when the chapter title of the work item is non-empty; otherwise the command is the
base command plus the `track` tag and output path only. -/
theorem C9_title_tag (wi : WorkItem) :
    (∀ t, wi.ch_title = some t → t ≠ "" →
      ∃ l r, workitem_to_ffmpeg_cmd wi
        = l ++ ["-metadata", "title=" ++ t] ++ r)
    ∧ (pyTruthy wi.ch_title = false →
      workitem_to_ffmpeg_cmd wi
        = ["ffmpeg", "-nostdin", "-i", wi.infile, "-v", "error", "-map_chapters", "-1",
           "-vn", "-c", "copy", "-ss", wi.start, "-to", wi.end_, "-n", "-metadata",
           "track=" ++ decimalStr wi.ch_id ++ "/" ++ decimalStr wi.ch_max, wi.outfile]) := by
  constructor
  · intro t hsome ht
    have htr : pyTruthy (some t) = true := by
      simp [pyTruthy, ht]
    refine ⟨["ffmpeg", "-nostdin", "-i", wi.infile, "-v", "error", "-map_chapters", "-1",
      "-vn", "-c", "copy", "-ss", wi.start, "-to", wi.end_, "-n", "-metadata",
      "track=" ++ decimalStr wi.ch_id ++ "/" ++ decimalStr wi.ch_max], [wi.outfile], ?_⟩
    simp [workitem_to_ffmpeg_cmd, htr, hsome]
  · intro hf
    simp [workitem_to_ffmpeg_cmd, hf]

theorem C9_title_tag_witness :
    (some "Intro" = some "Intro" ∧ ("Intro" : String) ≠ "") ∧
    (∃ l r, workitem_to_ffmpeg_cmd { wiDefault with ch_title := some "Intro" }
      = l ++ ["-metadata", "title=" ++ "Intro"] ++ r) ∧
    (pyTruthy wiDefault.ch_title = false ∧
      workitem_to_ffmpeg_cmd wiDefault
        = ["ffmpeg", "-nostdin", "-i", wiDefault.infile, "-v", "error", "-map_chapters",
           "-1", "-vn", "-c", "copy", "-ss", wiDefault.start, "-to", wiDefault.end_, "-n",
           "-metadata",
           "track=" ++ decimalStr wiDefault.ch_id ++ "/" ++ decimalStr wiDefault.ch_max,
           wiDefault.outfile]) :=
  ⟨⟨rfl, by decide⟩,
    (C9_title_tag { wiDefault with ch_title := some "Intro" }).1 "Intro" rfl (by decide),
    by decide, (C9_title_tag wiDefault).2 (by decide)⟩

/-- C10: the use-title option is observable only in the `outfile` field: the
work items generated with the option on and off agree pairwise on every other
field, and the corresponding commands differ only in the final output-path
argument (in particular the `title` metadata part depends only on the
title of the chapter). -/
theorem C10_use_title_frame (infile fbase fext outdir : String) (mx : Nat)
    (chapters : List RawChapter) :
    List.Forall₂ (fun a b =>
        a.infile = b.infile ∧ a.start = b.start ∧ a.end_ = b.end_ ∧
        a.ch_id = b.ch_id ∧ a.ch_max = b.ch_max ∧ a.ch_title = b.ch_title ∧
        workitem_to_ffmpeg_cmd a = (workitem_to_ffmpeg_cmd b).dropLast ++ [a.outfile])
      (gen_workitems true infile fbase fext outdir mx chapters)
      (gen_workitems false infile fbase fext outdir mx chapters) := by
  unfold gen_workitems
  rw [List.forall₂_map_left_iff, List.forall₂_map_right_iff]
  rw [List.forall₂_same]
  intro ch _
  refine ⟨rfl, rfl, rfl, rfl, rfl, rfl, ?_⟩
  simp only [workitem_to_ffmpeg_cmd]
  by_cases ht : pyTruthy (get_title_maybe ch) = true
  · simp [ht, List.dropLast_concat]
  · simp [ht, List.dropLast_concat]

/-- C1 is refuted at this run: the single job fails with an orchestration-level
exception (the subprocess cannot be started), the error count ends at 1, yet
`main` completes the loop and returns 0 — exit status zero with a non-zero
error count. -/
theorem C1_counterexample :
    (main (some { chapters? := some [exCh1] }) "/tmp/t" (fun l => l) runExn
        exArgs).outcome
      = MainOutcome.finished 0 0 1 := by
  rfl

/-- C1 (amended): whenever the aggregation loop completes, `main` returns 0
regardless of the final error count; an early return is 0 only for dry-run and
otherwise -1 (the run could not start).  A subprocess that runs and exits
non-zero instead aborts the run with an uncaught error before the loop
completes, so the exit status is not the tally-based status the spec
describes. -/
theorem C1_exit_code (probe : Option ProbeInfo) (mk : String)
    (sched : List JobOutcome → List JobOutcome)
    (run : List String → Except String ProcResult) (args : Args) :
    (∀ c s e, (main probe mk sched run args).outcome = MainOutcome.finished c s e →
      c = 0)
    ∧ (∀ c, (main probe mk sched run args).outcome = MainOutcome.earlyExit c →
      c = 0 ∨ c = -1) := by
  constructor
  · intro c s e h
    simp only [main] at h
    repeat' split at h
    all_goals simp_all
  · intro c h
    simp only [main] at h
    repeat' split at h
    all_goals simp_all

theorem C1_exit_code_witness :
    (main (some { chapters? := some [exCh1] }) "/tmp/t" (fun l => l) runExn
        exArgs).outcome
      = MainOutcome.finished 0 0 1
    ∧ (0 : Int) = 0 :=
  ⟨by rfl,
    (C1_exit_code (some { chapters? := some [exCh1] }) "/tmp/t" (fun l => l) runExn
        exArgs).1 0 0 1 (by rfl)⟩

/-- C2 (code bug): when a split subprocess runs and exits non-zero, the
aggregation loop enters the failure-logging branch, which reads the undefined
name `res` (the variable in scope is `result`) and raises `NameError`: the
run aborts instead of logging the failure and folding it into the tally.  At
this concrete run the single failed job crashes `main`. -/
theorem C2_failed_job_crashes_run :
    (main (some { chapters? := some [exCh1] }) "/tmp/t" (fun l => l) runFail
        exArgs).outcome
      = MainOutcome.crash MainCrash.nameErrorRes
    ∧ handle_outcome { success := 0, errors := 0 } (jobOutcome runFail wiDefault)
      = Except.error MainCrash.nameErrorRes := by
  constructor <;> rfl

/-- C3 is refuted at this run: the probe reports one chapter whose duration is
zero, so the post-validation chapter set is empty; the output directory is
nevertheless created (it is created before validation), after which the run
aborts with the uncaught `max()`-on-empty-sequence error rather than a
"no chapters" error. -/
theorem C3_counterexample :
    main (some { chapters? := some [exChZero] }) "/tmp/t" (fun l => l) runExn exArgs
      = { dirCreated := true, items := none,
          outcome := MainOutcome.crash MainCrash.maxEmpty } := by
  rfl

/-- C3 (amended): when the probe fails, the parsed output lacks a chapter list,
or the raw chapter list is empty, the run exits -1 with no directory created
and no work item built; but when the chapter set becomes empty only through
validation, the run aborts with the uncaught `max()`-on-empty error after the
output directory is created (still before any work item is built). -/
theorem C3_no_chapters (probe : Option ProbeInfo) (mk : String)
    (sched : List JobOutcome → List JobOutcome)
    (run : List String → Except String ProcResult) (args : Args) :
    ((probe = none ∨ probe = some { chapters? := none }
        ∨ probe = some { chapters? := some [] }) →
      main probe mk sched run args
        = { dirCreated := false, items := none, outcome := MainOutcome.earlyExit (-1) })
    ∧ (∀ info raw, probe = some info → info.chapters? = some raw → raw ≠ [] →
        raw.filterMap validate_chapter = [] →
        (os_path_splitext (os_path_basename args.infile)).1.length ≠ 0 →
        (os_path_splitext (os_path_basename args.infile)).2.length ≠ 0 →
        main probe mk sched run args
          = { dirCreated := true, items := none,
              outcome := MainOutcome.crash MainCrash.maxEmpty }) := by
  constructor
  · rintro (rfl | rfl | rfl) <;>
      · simp only [main]
        split <;> rfl
  · intro info raw hp hch hne hval hb1 hb2
    subst hp
    have hcond : (decide ((os_path_splitext (os_path_basename args.infile)).1.length = 0)
        || decide ((os_path_splitext (os_path_basename args.infile)).2.length = 0))
        = false := by
      simp [hb1, hb2]
    simp only [main, hcond, hch, hval]
    rw [if_neg (by simp)]
    rw [if_neg (fun h => hne (List.length_eq_zero.mp h))]
    rfl

theorem C3_no_chapters_witness :
    (main none "/tmp/t" (fun l => l) runExn exArgs
        = { dirCreated := false, items := none,
            outcome := MainOutcome.earlyExit (-1) })
    ∧ ([exChZero] ≠ ([] : List RawChapter)
        ∧ [exChZero].filterMap validate_chapter = []
        ∧ (os_path_splitext (os_path_basename exArgs.infile)).1.length ≠ 0
        ∧ (os_path_splitext (os_path_basename exArgs.infile)).2.length ≠ 0)
    ∧ main (some { chapters? := some [exChZero] }) "/tmp/t" (fun l => l) runExn exArgs
        = { dirCreated := true, items := none,
            outcome := MainOutcome.crash MainCrash.maxEmpty } :=
  ⟨(C3_no_chapters none "/tmp/t" (fun l => l) runExn exArgs).1 (Or.inl rfl),
    ⟨by decide, by decide, by decide, by decide⟩,
    (C3_no_chapters (some { chapters? := some [exChZero] }) "/tmp/t" (fun l => l) runExn
        exArgs).2 { chapters? := some [exChZero] } [exChZero] rfl rfl (by decide)
      (by decide) (by decide) (by decide)⟩

/-- C8 (code bug): the `track` metadata denominator is the maximum chapter id
of the plan, not the total number of chapters: with 0-based probe ids 0
and 1 (two valid chapters) the plan has 2 items, yet the command of the first item
carries `track=0/1`, and no command carries a `/2` denominator.  The script
own header documents the denominator as the total number of chapters. -/
theorem C8_track_denominator :
    [exCh0, exCh1b].filterMap validate_chapter = [exCh0, exCh1b]
    ∧ maxChapterId [exCh0, exCh1b] = some 1
    ∧ (gen_workitems true "in.mp3" "in" "mp3" "out" 1 [exCh0, exCh1b]).length = 2
    ∧ (∀ cmd ∈ (gen_workitems true "in.mp3" "in" "mp3" "out" 1
          [exCh0, exCh1b]).map workitem_to_ffmpeg_cmd, "track=0/2" ∉ cmd)
    ∧ "track=0/1" ∈ workitem_to_ffmpeg_cmd
        ((gen_workitems true "in.mp3" "in" "mp3" "out" 1 [exCh0, exCh1b]).headD
          wiDefault) := by
  decide

/-- C5: in a valid work plan (pairwise-distinct chapter ids, as produced by
the probe tool, and a well-defined maximum id), the outfile paths of the
generated work items are pairwise distinct: every valid id renders at exactly
the padding width, so distinct ids give distinct padded prefixes regardless of
the labels. -/
theorem C5_outfiles_nodup (u : Bool) (infile fbase fext outdir : String) (mx : Nat)
    (chapters : List RawChapter)
    (hmax : maxChapterId chapters = some mx)
    (hids : (chapters.map RawChapter.id).Nodup) :
    ((gen_workitems u infile fbase fext outdir mx chapters).map
      WorkItem.outfile).Nodup := by
  have hle : ∀ ch ∈ chapters, ch.id ≤ mx := le_maxChapterId hmax
  have hchnodup : chapters.Nodup := List.Nodup.of_map _ hids
  have hinj := List.inj_on_of_nodup_map hids
  unfold gen_workitems
  rw [List.map_map]
  apply List.Nodup.map_on ?_ hchnodup
  intro x hx y hy hxy
  simp only [Function.comp] at hxy
  have hb := os_path_join_inj
    (outfile_basename_head u fbase fext mx x.id (get_title_maybe x))
    (outfile_basename_head u fbase fext mx y.id (get_title_maybe y)) hxy
  have hid := outfile_basename_inj (hle x hx) (hle y hy) hb
  exact hinj hx hy hid

theorem C5_outfiles_nodup_witness :
    (maxChapterId [exCh1, exCh3] = some 3
      ∧ ([exCh1, exCh3].map RawChapter.id).Nodup)
    ∧ ((gen_workitems true "/tmp/book.mp3" "book" "mp3" "out" 3 [exCh1, exCh3]).map
        WorkItem.outfile).Nodup :=
  ⟨⟨by decide, by decide⟩,
    C5_outfiles_nodup true "/tmp/book.mp3" "book" "mp3" "out" 3 [exCh1, exCh3]
      (by decide) (by decide)⟩

end SplitAudiobook
